import Mathlib

/-!
Shallow embedding of the batch-download engine of
`crates/carbon_net/src/lib.rs` (KomeLauncher-v2): the per-descriptor task
body spawned by `download_multiple`, the join loop, the single-file
`download_file`, and the shared progress counters.  The filesystem, the
network and the digest algorithms are abstract environment parameters; the
`u64` counters use explicit wrapping arithmetic.  The semaphore admission
gate is modelled as a transition system in its own section below.
-/

namespace CarbonNet

/-- Modulus of the source's `u64` counters (`AtomicU64`, `u64`). -/
def U64MOD : Nat := 2 ^ 64

/-- Wrapping `u64` addition (`fetch_add`, `+=` in release mode). -/
def addW (a b : Nat) : Nat := (a + b) % U64MOD

/-- Wrapping `u64` subtraction (`fetch_sub`, `-` in release mode). -/
def subW (a b : Nat) : Nat := (a + (U64MOD - b % U64MOD)) % U64MOD

/-- The `enum Checksum` of lib.rs 28-33. -/
inductive Checksum where
  | sha1 (hex : String)
  | sha256 (hex : String)
  | md5 (hex : String)
deriving DecidableEq

/-- The `struct Downloadable` of lib.rs 43-49; `path` is kept as the
rendered path string (`path.display().to_string()`). -/
structure Downloadable where
  url : String
  path : String
  checksum : Option Checksum
  size : Option Nat
deriving DecidableEq

/-- Modelled from the spec: the crate's `mod error` (file
`crates/carbon_net/src/error.rs`) is not among the provided sources, so
`DownloadError` follows spec section 7: `Non200StatusCode{status}` (the
call sites additionally store the `Downloadable`), `SizeMismatch{expected,
actual}`, `ChecksumMismatch{expected, actual, url, path}`,
`GenericDownload{message}` for I/O and adapter failures, and
transport-level errors surfaced as-is from the HTTP layer. -/
inductive DownloadError where
  | non200StatusCode (file : Downloadable) (status : Nat)
  | sizeMismatch (expected actual : Nat)
  | checksumMismatch (expected actual url path : String)
  | genericDownload (message : String)
  | transport (message : String)
deriving DecidableEq

/-- The `struct Progress` of lib.rs 78-85. -/
structure Progress where
  totalCount : Nat
  currentCount : Nat
  totalSize : Nat
  currentSize : Nat
deriving DecidableEq

/-- Lowercase hexadecimal digit. -/
def hexDigit (n : Nat) : Char :=
  if n < 10 then Char.ofNat (48 + n) else Char.ofNat (87 + n)

/-- One byte as two lowercase hex digits, as both `hex::encode` and the
digest `{:x}` formatting render each byte. -/
def hexByte (b : Nat) : List Char :=
  [hexDigit (b / 16 % 16), hexDigit (b % 16)]

/-- Lowercase hex encoding of a digest byte sequence. -/
def hexEncode (bs : List Nat) : String :=
  String.mk ((bs.map hexByte).foldr (· ++ ·) [])

/-- Concatenation of stream chunks into one byte sequence. -/
def bytesConcat : List (List Nat) → List Nat
  | [] => []
  | c :: cs => c ++ bytesConcat cs

/-- Abstract digest algorithms (the sha1/sha2/md5 crates): each maps the
full byte sequence fed to a hasher to its digest bytes. -/
structure HashModel where
  sha1 : List Nat → List Nat
  sha256 : List Nat → List Nat
  md5 : List Nat → List Nat

/-- The hex string stored inside a `Checksum`. -/
def checksumExpected : Checksum → String
  | .sha1 h => h
  | .sha256 h => h
  | .md5 h => h

/-- Digest selected by the checksum kind: the source updates exactly the
hasher matching the descriptor's checksum and finalizes that one. -/
def hashOf (hm : HashModel) : Checksum → List Nat → List Nat
  | .sha1 _ => hm.sha1
  | .sha256 _ => hm.sha256
  | .md5 _ => hm.md5

/-- Filesystem environment: `path.exists()`, `tokio::fs::metadata` (the
on-disk length or an error), `File::open` + `read_to_end`, `Path::parent`,
`create_dir_all`, and the `OpenOptions` open-for-write. -/
structure FS where
  pathExists : String → Bool
  metadata : String → Except String Nat
  readFile : String → Except String (List Nat)
  parentOf : String → Option String
  createDir : String → Except String Unit
  openWrite : String → Except String Unit

/-- An HTTP response: status code and the byte-stream items
(`resp.bytes_stream()`), each either a chunk or a transport error. -/
structure Response where
  status : Nat
  chunks : List (Except String (List Nat))

/-- `reqwest::StatusCode::is_success`: the 2xx range. -/
def statusIsSuccess (s : Nat) : Bool := decide (200 ≤ s ∧ s < 300)

/-- The `file_looks_good` quick freshness check (lib.rs 260-271). -/
def fileLooksGood (fs : FS) (file : Downloadable) : Bool :=
  match file.size with
  | some size =>
    if fs.pathExists file.path then
      match fs.metadata file.path with
      | .ok len => len == size
      | .error _ => false
    else false
  | none => fs.pathExists file.path

/-- The three shared atomic counters `progress_counter`, `file_counter`
and `total_size` (lib.rs 234-236). -/
structure PState where
  progressCounter : Nat
  fileCounter : Nat
  totalSize : Nat
deriving DecidableEq

/-- Outcome of one spawned task: `Ok(bool)`, `Err(e)`, or a panic (the
`file.size.unwrap()` calls at lib.rs 298/323/348). -/
inductive TaskResult where
  | ok (downloadRequired : Bool)
  | err (e : DownloadError)
  | panicked
deriving DecidableEq

/-- Ghost log of a task's operations on `progress_counter`. -/
inductive CounterOp where
  | add (n : Nat)
  | sub (n : Nat)
deriving DecidableEq

/-- Result of running one task body sequentially: its outcome, the shared
counters afterwards, the snapshots sent on the watch channel (modelled
with a live receiver, so sends succeed), whether an HTTP GET was issued,
the bytes written to the destination (`none` when the file is untouched),
and the ghost `progress_counter` operation log. -/
structure TaskRun where
  result : TaskResult
  state : PState
  sent : List Progress
  network : Bool
  written : Option (List Nat)
  ops : List CounterOp
deriving DecidableEq

/-- Accumulator of the response-stream loop (lib.rs 406-434). -/
structure LoopAcc where
  buf : List Nat
  fileDownloaded : Nat
  fileSizeReported : Nat
  st : PState
  sent : List Progress
  ops : List CounterOp
  written : List Nat

/-- The `while let Some(item) = resp_stream.next()` loop of lib.rs
406-434: per chunk, feed the hasher, write to disk, `fetch_add` the chunk
length onto `progress_counter`, grow `total_size` once the running total
exceeds the size credited so far, and publish a snapshot whose
`current_size` is the counter value from *before* the add (`fetch_add`
returns the previous value). -/
def chunkLoop (totalCount : Nat) :
    List (Except String (List Nat)) → LoopAcc → Except (String × LoopAcc) LoopAcc
  | [], acc => .ok acc
  | .error e :: _, acc => .error (e, acc)
  | .ok res :: rest, acc =>
    let downloaded := acc.st.progressCounter
    let pc := addW acc.st.progressCounter res.length
    let fd := addW acc.fileDownloaded res.length
    let fsr := if acc.fileSizeReported < fd then fd else acc.fileSizeReported
    let ts :=
      if acc.fileSizeReported < fd then
        addW acc.st.totalSize (fd - acc.fileSizeReported)
      else acc.st.totalSize
    let snap : Progress := ⟨totalCount, acc.st.fileCounter, ts, downloaded⟩
    chunkLoop totalCount rest
      ⟨acc.buf ++ res, fd, fsr, ⟨pc, acc.st.fileCounter, ts⟩,
       acc.sent ++ [snap], acc.ops ++ [.add res.length], acc.written ++ res⟩

/-- The network-transfer tail of the task body (lib.rs 377-509): GET,
status check, parent-directory creation, open for (truncating) write,
stream the chunks, then the post-stream `fetch_sub` of the
credited-but-not-downloaded difference, the final snapshot (whose
`current_count` is the `file_counter` value from *before* its
`fetch_add(1)`), and finally checksum verification. -/
def download (hm : HashModel) (net : String → Except String Response) (fs : FS)
    (file : Downloadable) (totalCount : Nat) (st : PState) : TaskRun :=
  match net file.url with
  | .error e => ⟨.err (.transport e), st, [], true, none, []⟩
  | .ok resp =>
    if statusIsSuccess resp.status then
      match fs.parentOf file.path with
      | none => ⟨.err (.genericDownload "Can\x27t create folder"), st, [], true, none, []⟩
      | some parent =>
        match fs.createDir parent with
        | .error e => ⟨.err (.genericDownload e), st, [], true, none, []⟩
        | .ok _ =>
          match fs.openWrite file.path with
          | .error e => ⟨.err (.genericDownload e), st, [], true, none, []⟩
          | .ok _ =>
            match chunkLoop totalCount resp.chunks ⟨[], 0, file.size.getD 0, st, [], [], []⟩ with
            | .error (e, acc) =>
              ⟨.err (.transport e), acc.st, acc.sent, true, some acc.written, acc.ops⟩
            | .ok acc =>
              let diff := acc.fileSizeReported - acc.fileDownloaded
              let total := subW acc.st.progressCounter diff
              let snap : Progress := ⟨totalCount, acc.st.fileCounter, acc.st.totalSize, total⟩
              let st2 : PState := ⟨total, addW acc.st.fileCounter 1, acc.st.totalSize⟩
              let sent := acc.sent ++ [snap]
              let ops := acc.ops ++ [.sub diff]
              match file.checksum with
              | none => ⟨.ok true, st2, sent, true, some acc.written, ops⟩
              | some c =>
                let actual := hexEncode (hashOf hm c acc.buf)
                if checksumExpected c = actual then
                  ⟨.ok true, st2, sent, true, some acc.written, ops⟩
                else
                  ⟨.err (.checksumMismatch (checksumExpected c) actual file.url file.path),
                   st2, sent, true, some acc.written, ops⟩
    else ⟨.err (.non200StatusCode file resp.status), st, [], true, none, []⟩

/-- One spawned task body (lib.rs 252-510), run sequentially against the
abstract environments.  The semaphore acquire that precedes this body is
modelled in the admission-control section; its only failure mode (a closed
semaphore) cannot occur in `download_multiple`. -/
def runTask (hm : HashModel) (net : String → Except String Response) (fs : FS)
    (file : Downloadable) (deepCheck skipDownload : Bool)
    (totalCount : Nat) (st : PState) : TaskRun :=
  if fileLooksGood fs file then
    if deepCheck then
      match fs.readFile file.path with
      | .error e => ⟨.err (.genericDownload e), st, [], false, none, []⟩
      | .ok buf =>
        match file.checksum with
        | some c =>
          if checksumExpected c = hexEncode (hashOf hm c buf) then
            match file.size with
            | none => ⟨.panicked, st, [], false, none, []⟩
            | some s =>
              ⟨.ok false, ⟨addW st.progressCounter s, st.fileCounter, st.totalSize⟩,
               [⟨totalCount, st.fileCounter, st.totalSize, st.progressCounter⟩],
               false, none, [.add s]⟩
          else download hm net fs file totalCount st
        | none => download hm net fs file totalCount st
    else ⟨.ok false, st, [], false, none, []⟩
  else if skipDownload then ⟨.ok true, st, [], false, none, []⟩
  else download hm net fs file totalCount st

/-- The join loop of lib.rs 515-526: `download_required |= r` in spawn
order, the first `Err` is returned and the remaining results are
discarded; a panicked task surfaces through `task.await?` as a join
error. -/
def joinLoop (acc : Bool) : List TaskResult → Except DownloadError Bool
  | [] => .ok acc
  | .ok b :: rest => joinLoop (acc || b) rest
  | .err e :: _ => .error e
  | .panicked :: _ => .error (.genericDownload "task join error")

/-- Run the spawned tasks in spawn order (one linearization of the
batch), threading the shared counters through. -/
def runTasks (hm : HashModel) (net : String → Except String Response) (fs : FS)
    (deepCheck skipDownload : Bool) (totalCount : Nat) :
    List Downloadable → PState → List TaskResult × PState
  | [], st => ([], st)
  | f :: rest, st =>
    let r := runTask hm net fs f deepCheck skipDownload totalCount st
    let p := runTasks hm net fs deepCheck skipDownload totalCount rest r.state
    (r.result :: p.1, p.2)

/-- `download_multiple` (lib.rs 215-529): seed `total_size` with the sum
of the known sizes, spawn one task per descriptor, then join. -/
def downloadMultiple (hm : HashModel) (net : String → Except String Response)
    (fs : FS) (files : List Downloadable) (deepCheck skipDownload : Bool) :
    Except DownloadError Bool :=
  joinLoop false
    (runTasks hm net fs deepCheck skipDownload files.length files
      ⟨0, 0, (files.filterMap (fun f => f.size)).foldl addW 0⟩).1

/-- Collect the response stream of `download_file` into `buf`
(lib.rs 125-139); the first stream error is returned. -/
def collectChunks : List (Except String (List Nat)) → Except String (List Nat)
  | [] => .ok []
  | .error e :: _ => .error e
  | .ok c :: rest =>
    match collectChunks rest with
    | .error e => .error e
    | .ok r => .ok (c ++ r)

/-- Checksum verification tail of `download_file` (lib.rs 151-199). -/
def downloadFileChecksum (hm : HashModel) (file : Downloadable) (buf : List Nat) :
    Except DownloadError Unit :=
  match file.checksum with
  | none => .ok ()
  | some c =>
    let actual := hexEncode (hashOf hm c buf)
    if checksumExpected c = actual then .ok ()
    else .error (.checksumMismatch (checksumExpected c) actual file.url file.path)

/-- `download_file` (lib.rs 94-212), result only: GET, status check,
parent creation when a parent exists, open, stream into `buf`, then the
size check (`SizeMismatch{expected, actual}`) and the checksum check. -/
def downloadFile (hm : HashModel) (net : String → Except String Response)
    (fs : FS) (file : Downloadable) : Except DownloadError Unit :=
  match net file.url with
  | .error e => .error (.transport e)
  | .ok resp =>
    if statusIsSuccess resp.status then
      match (match fs.parentOf file.path with
             | some p => fs.createDir p
             | none => .ok ()) with
      | .error e => .error (.genericDownload e)
      | .ok _ =>
        match fs.openWrite file.path with
        | .error e => .error (.genericDownload e)
        | .ok _ =>
          match collectChunks resp.chunks with
          | .error e => .error (.transport e)
          | .ok buf =>
            match file.size with
            | some size =>
              if size = buf.length then downloadFileChecksum hm file buf
              else .error (.sizeMismatch size buf.length)
            | none => downloadFileChecksum hm file buf
    else .error (.non200StatusCode file resp.status)

/-! Concrete environments used to exercise the model on the spec's
scenarios. -/

/-- Digest algorithms for runs that never consult a checksum. -/
def hmZero : HashModel := ⟨fun _ => [], fun _ => [], fun _ => []⟩

/-- Scenario-B descriptor: `expected_size = 1024`, no checksum. -/
def fileB : Downloadable := ⟨"http://example/f", "/dst/f", none, some 1024⟩

/-- Filesystem with no pre-existing destination and a writable `/dst`. -/
def fsB : FS :=
  ⟨fun _ => false, fun _ => .error "missing", fun _ => .error "missing",
   fun _ => some "/dst", fun _ => .ok (), fun _ => .ok ()⟩

/-- Network serving a 900-byte payload with status 200. -/
def netB : String → Except String Response :=
  fun _ => .ok ⟨200, [.ok (List.replicate 900 7)]⟩

/-- The scenario-B transfer as a single task run, `total_size` seeded with
the declared 1024 bytes. -/
def runB : TaskRun := runTask hmZero netB fsB fileB false false 1 ⟨0, 0, 1024⟩

/-- Network serving a 100-byte payload with status 200: far below the
declared 1024 bytes, so the post-stream `fetch_sub` wraps the counter. -/
def netW : String → Except String Response :=
  fun _ => .ok ⟨200, [.ok (List.replicate 100 7)]⟩

/-- The scenario-B descriptor transferred against `netW`. -/
def runW : TaskRun := runTask hmZero netW fsB fileB false false 1 ⟨0, 0, 1024⟩

/-- Network whose stream yields one 1-byte chunk and then a transport
error. -/
def netE : String → Except String Response :=
  fun _ => .ok ⟨200, [.ok [7], .error "reset"]⟩

/-- The scenario-B descriptor transferred against the failing `netE`. -/
def runE : TaskRun := runTask hmZero netE fsB fileB false false 1 ⟨0, 0, 1024⟩

/-- Digest algorithms whose sha1 digest is always the byte `0xab`. -/
def hmAB : HashModel := ⟨fun _ => [171], fun _ => [], fun _ => []⟩

/-- A descriptor with declared sha1 checksum `"ab"` and size 100. -/
def fileF : Downloadable := ⟨"http://example/g", "/dst/g", some (.sha1 "ab"), some 100⟩

/-- Filesystem holding a 100-byte file with content `[1, 2, 3]` readable at
every path. -/
def fsF : FS :=
  ⟨fun _ => true, fun _ => .ok 100, fun _ => .ok [1, 2, 3],
   fun _ => some "/dst", fun _ => .ok (), fun _ => .ok ()⟩

/-- An unreachable network. -/
def netNone : String → Except String Response := fun _ => .error "unreachable"

/-- A deep-checked fresh descriptor run (quick check passes, hash
matches). -/
def runF : TaskRun := runTask hmAB netNone fsF fileF true false 1 ⟨0, 0, 100⟩

/-- A descriptor with a checksum but no declared size. -/
def file8 : Downloadable := ⟨"http://example/m", "/dst/m", some (.sha1 "ab"), none⟩

/-- A descriptor with a declared size 1 and no checksum. -/
def file9 : Downloadable := ⟨"http://example/n", "/dst/n", none, some 1⟩

/-- Filesystem holding a 1-byte file with content `[5]`. -/
def fs9 : FS :=
  ⟨fun _ => true, fun _ => .ok 1, fun _ => .ok [5],
   fun _ => some "/dst", fun _ => .ok (), fun _ => .ok ()⟩

/-- Network serving the 1-byte payload `[5]`. -/
def net9 : String → Except String Response := fun _ => .ok ⟨200, [Except.ok [5]]⟩

/-- Digests distinguishing the remote payload `[9]` (digest `0xab`) from
any other content (digest `0x00`). -/
def hm6 : HashModel := ⟨fun b => if b = [9] then [171] else [0], fun _ => [], fun _ => []⟩

/-- A descriptor declaring sha1 `"ab"` and size 1. -/
def file6 : Downloadable := ⟨"http://example/h", "/dst/h", some (.sha1 "ab"), some 1⟩

/-- Filesystem holding a 1-byte file with the stale content `[1]`. -/
def fs6 : FS :=
  ⟨fun _ => true, fun _ => .ok 1, fun _ => .ok [1],
   fun _ => some "/dst", fun _ => .ok (), fun _ => .ok ()⟩

/-- Network serving the fresh payload `[9]`. -/
def net6 : String → Except String Response := fun _ => .ok ⟨200, [Except.ok [9]]⟩

/-- A descriptor declaring sha1 `"ab"` and no size. -/
def file7 : Downloadable := ⟨"http://example/k", "/dst/k", some (.sha1 "ab"), none⟩

/-- Filesystem with no pre-existing destination. -/
def fs7 : FS :=
  ⟨fun _ => false, fun _ => .error "missing", fun _ => .error "missing",
   fun _ => some "/dst", fun _ => .ok (), fun _ => .ok ()⟩

/-- Network serving the payload `[1]`, whose digest under `hmZero` is the
empty byte sequence, hex `""`. -/
def net7 : String → Except String Response := fun _ => .ok ⟨200, [Except.ok [1]]⟩

/-! Admission control.  `download_multiple` creates
`tokio::sync::Semaphore::new(concurrency)` (lib.rs 228) and every spawned
task acquires a permit as its very first statement (lib.rs 253-256),
holding it (RAII `_permit`) until the task body returns.  The freshness
check (lib.rs 260-271) and the GET (lib.rs 380) therefore both run while
the permit is held. -/

/-- Effects of one task body relative to the admission semaphore, in
source order. -/
inductive BodyStep where
  | acquirePermit
  | freshnessCheck
  | deepVerify
  | networkRequest
  | streamChunks
  | verifyChecksum
  | releasePermit
deriving DecidableEq

/-- The body's effect order: a straight-line abstraction of lib.rs
252-510. -/
def taskBodySteps : List BodyStep :=
  [.acquirePermit, .freshnessCheck, .deepVerify, .networkRequest,
   .streamChunks, .verifyChecksum, .releasePermit]

/-- Position of a step in the body. -/
def stepIndex (s : BodyStep) : Nat := taskBodySteps.indexOf s

/-- Tasks of one batch classified by semaphore state: not yet admitted,
inside the task body (holding a permit), or finished (permit dropped). -/
structure SemState where
  waiting : Nat
  inBody : Nat
  finished : Nat
deriving DecidableEq

/-- Semaphore transitions: `acquire()` completes only while fewer than `n`
permits are out; dropping `_permit` at body exit releases one. -/
inductive SemStep (n : Nat) : SemState → SemState → Prop
  | acquire (s : SemState) (hw : 0 < s.waiting) (hn : s.inBody < n) :
      SemStep n s ⟨s.waiting - 1, s.inBody + 1, s.finished⟩
  | release (s : SemState) (hb : 0 < s.inBody) :
      SemStep n s ⟨s.waiting, s.inBody - 1, s.finished + 1⟩

/-- Reachability under the semaphore transitions. -/
inductive SemReach (n : Nat) (s : SemState) : SemState → Prop
  | refl : SemReach n s s
  | step (t u : SemState) : SemReach n s t → SemStep n t u → SemReach n s u

/-- Semaphore invariant: the number of tasks inside their bodies never
exceeds the permit count. -/
theorem semReach_inBody_le (n : Nat) (s t : SemState) (h0 : s.inBody ≤ n)
    (h : SemReach n s t) : t.inBody ≤ n := by
  induction h with
  | refl => exact h0
  | step a b _ hstep ih =>
    cases hstep with
    | acquire hw hn => exact hn
    | release hb => exact Nat.le_trans (Nat.sub_le _ _) ih

/-! Helper lemmas. -/

theorem joinLoop_map_ok (acc : Bool) (bs : List Bool) :
    joinLoop acc (bs.map TaskResult.ok) = .ok (acc || bs.any id) := by
  induction bs generalizing acc with
  | nil => simp [joinLoop]
  | cons b bs ih => simp [joinLoop, ih, Bool.or_assoc]

theorem joinLoop_ok_false_iff (acc : Bool) (rs : List TaskResult) :
    joinLoop acc rs = .ok false ↔ acc = false ∧ ∀ r ∈ rs, r = .ok false := by
  induction rs generalizing acc with
  | nil => simp [joinLoop]
  | cons r rs ih =>
    cases r with
    | ok b =>
      simp only [joinLoop, ih, List.mem_cons]
      constructor
      · rintro ⟨hab, hall⟩
        rcases Bool.or_eq_false_iff.mp hab with ⟨ha, hb⟩
        refine ⟨ha, ?_⟩
        rintro r hr2
        rcases hr2 with rfl | hr2
        · rw [hb]
        · exact hall r hr2
      · rintro ⟨ha, hall⟩
        have hb := hall (.ok b) (Or.inl rfl)
        have hb2 : b = false := by injection hb
        refine ⟨by simp [ha, hb2], fun r hr => hall r (Or.inr hr)⟩
    | err e => simp [joinLoop]
    | panicked => simp [joinLoop]

theorem joinLoop_first_error (acc : Bool) (pre : List Bool) (e : DownloadError)
    (rest : List TaskResult) :
    joinLoop acc (pre.map TaskResult.ok ++ TaskResult.err e :: rest) = .error e := by
  induction pre generalizing acc with
  | nil => rfl
  | cons b pre ih => simpa [joinLoop] using ih (acc || b)

theorem chunkLoop_all_ok (tc : Nat) (cs : List (List Nat)) :
    ∀ acc : LoopAcc, ∃ acc2 : LoopAcc,
      chunkLoop tc (cs.map Except.ok) acc = .ok acc2
      ∧ acc2.buf = acc.buf ++ bytesConcat cs
      ∧ acc2.written = acc.written ++ bytesConcat cs := by
  induction cs with
  | nil => exact fun acc => ⟨acc, rfl, by simp [bytesConcat], by simp [bytesConcat]⟩
  | cons c cs ih =>
    intro acc
    obtain ⟨acc2, h1, h2, h3⟩ := ih
      ⟨acc.buf ++ c, addW acc.fileDownloaded c.length,
       if acc.fileSizeReported < addW acc.fileDownloaded c.length then
         addW acc.fileDownloaded c.length else acc.fileSizeReported,
       ⟨addW acc.st.progressCounter c.length, acc.st.fileCounter,
        if acc.fileSizeReported < addW acc.fileDownloaded c.length then
          addW acc.st.totalSize (addW acc.fileDownloaded c.length - acc.fileSizeReported)
        else acc.st.totalSize⟩,
       acc.sent ++ [⟨tc, acc.st.fileCounter,
         if acc.fileSizeReported < addW acc.fileDownloaded c.length then
           addW acc.st.totalSize (addW acc.fileDownloaded c.length - acc.fileSizeReported)
         else acc.st.totalSize, acc.st.progressCounter⟩],
       acc.ops ++ [.add c.length], acc.written ++ c⟩
    refine ⟨acc2, ?_, ?_, ?_⟩
    · simpa [chunkLoop] using h1
    · simp only [h2, bytesConcat]
      simp [List.append_assoc]
    · simp only [h3, bytesConcat]
      simp [List.append_assoc]

theorem chunkLoop_ok_ops (tc : Nat) (cs : List (List Nat)) :
    ∀ acc : LoopAcc, ∃ acc2 : LoopAcc,
      chunkLoop tc (cs.map Except.ok) acc = .ok acc2
      ∧ acc2.ops = acc.ops ++ (cs.map fun c => CounterOp.add c.length) := by
  induction cs with
  | nil => exact fun acc => ⟨acc, rfl, by simp⟩
  | cons c cs ih =>
    intro acc
    obtain ⟨acc2, h1, h2⟩ := ih
      ⟨acc.buf ++ c, addW acc.fileDownloaded c.length,
       if acc.fileSizeReported < addW acc.fileDownloaded c.length then
         addW acc.fileDownloaded c.length else acc.fileSizeReported,
       ⟨addW acc.st.progressCounter c.length, acc.st.fileCounter,
        if acc.fileSizeReported < addW acc.fileDownloaded c.length then
          addW acc.st.totalSize (addW acc.fileDownloaded c.length - acc.fileSizeReported)
        else acc.st.totalSize⟩,
       acc.sent ++ [⟨tc, acc.st.fileCounter,
         if acc.fileSizeReported < addW acc.fileDownloaded c.length then
           addW acc.st.totalSize (addW acc.fileDownloaded c.length - acc.fileSizeReported)
         else acc.st.totalSize, acc.st.progressCounter⟩],
       acc.ops ++ [.add c.length], acc.written ++ c⟩
    refine ⟨acc2, ?_, ?_⟩
    · simpa [chunkLoop] using h1
    · simp only [h2]
      simp [List.append_assoc]

theorem chunkLoop_err_ops (tc : Nat) (pre : List (List Nat)) (e : String)
    (rest : List (Except String (List Nat))) :
    ∀ acc : LoopAcc, ∃ acc2 : LoopAcc,
      chunkLoop tc (pre.map Except.ok ++ .error e :: rest) acc = .error (e, acc2)
      ∧ acc2.ops = acc.ops ++ (pre.map fun c => CounterOp.add c.length) := by
  induction pre with
  | nil => exact fun acc => ⟨acc, rfl, by simp⟩
  | cons c pre ih =>
    intro acc
    obtain ⟨acc2, h1, h2⟩ := ih
      ⟨acc.buf ++ c, addW acc.fileDownloaded c.length,
       if acc.fileSizeReported < addW acc.fileDownloaded c.length then
         addW acc.fileDownloaded c.length else acc.fileSizeReported,
       ⟨addW acc.st.progressCounter c.length, acc.st.fileCounter,
        if acc.fileSizeReported < addW acc.fileDownloaded c.length then
          addW acc.st.totalSize (addW acc.fileDownloaded c.length - acc.fileSizeReported)
        else acc.st.totalSize⟩,
       acc.sent ++ [⟨tc, acc.st.fileCounter,
         if acc.fileSizeReported < addW acc.fileDownloaded c.length then
           addW acc.st.totalSize (addW acc.fileDownloaded c.length - acc.fileSizeReported)
         else acc.st.totalSize, acc.st.progressCounter⟩],
       acc.ops ++ [.add c.length], acc.written ++ c⟩
    refine ⟨acc2, ?_, ?_⟩
    · simpa [chunkLoop] using h1
    · simp only [h2]
      simp [List.append_assoc]

/-- The task's op log from either exit of the stream loop. -/
def loopOps : Except (String × LoopAcc) LoopAcc → List CounterOp
  | .ok a => a.ops
  | .error p => p.2.ops

theorem chunkLoop_ops (tc : Nat) (chunks : List (Except String (List Nat))) :
    ∀ acc : LoopAcc, ∃ adds : List Nat,
      loopOps (chunkLoop tc chunks acc) = acc.ops ++ adds.map CounterOp.add := by
  induction chunks with
  | nil => exact fun acc => ⟨[], by simp [chunkLoop, loopOps]⟩
  | cons c rest ih =>
    intro acc
    cases c with
    | error e => exact ⟨[], by simp [chunkLoop, loopOps]⟩
    | ok res =>
      obtain ⟨adds, h⟩ := ih
        ⟨acc.buf ++ res, addW acc.fileDownloaded res.length,
         if acc.fileSizeReported < addW acc.fileDownloaded res.length then
           addW acc.fileDownloaded res.length else acc.fileSizeReported,
         ⟨addW acc.st.progressCounter res.length, acc.st.fileCounter,
          if acc.fileSizeReported < addW acc.fileDownloaded res.length then
            addW acc.st.totalSize (addW acc.fileDownloaded res.length - acc.fileSizeReported)
          else acc.st.totalSize⟩,
         acc.sent ++ [⟨tc, acc.st.fileCounter,
           if acc.fileSizeReported < addW acc.fileDownloaded res.length then
             addW acc.st.totalSize (addW acc.fileDownloaded res.length - acc.fileSizeReported)
           else acc.st.totalSize, acc.st.progressCounter⟩],
         acc.ops ++ [.add res.length], acc.written ++ res⟩
      refine ⟨res.length :: adds, ?_⟩
      rw [chunkLoop]
      simpa [List.append_assoc] using h

theorem download_ops (hm : HashModel) (net : String → Except String Response)
    (fs : FS) (file : Downloadable) (tc : Nat) (st : PState) :
    (∃ adds : List Nat, (download hm net fs file tc st).ops = adds.map CounterOp.add)
    ∨ (∃ (adds : List Nat) (d : Nat),
        (download hm net fs file tc st).ops
          = adds.map CounterOp.add ++ [CounterOp.sub d]) := by
  cases hnet : net file.url with
  | error e => exact Or.inl ⟨[], by simp [download, hnet]⟩
  | ok resp =>
    cases hst : statusIsSuccess resp.status with
    | false => exact Or.inl ⟨[], by simp [download, hnet, hst]⟩
    | true =>
      cases hpar : fs.parentOf file.path with
      | none => exact Or.inl ⟨[], by simp [download, hnet, hst, hpar]⟩
      | some p =>
        cases hcd : fs.createDir p with
        | error e => exact Or.inl ⟨[], by simp [download, hnet, hst, hpar, hcd]⟩
        | ok u =>
          cases how : fs.openWrite file.path with
          | error e => exact Or.inl ⟨[], by simp [download, hnet, hst, hpar, hcd, how]⟩
          | ok u2 =>
            have hops := chunkLoop_ops tc resp.chunks ⟨[], 0, file.size.getD 0, st, [], [], []⟩
            cases hcl : chunkLoop tc resp.chunks ⟨[], 0, file.size.getD 0, st, [], [], []⟩ with
            | error ea =>
              obtain ⟨e2, acc⟩ := ea
              rw [hcl] at hops
              obtain ⟨adds, ha⟩ := hops
              simp only [loopOps, List.nil_append] at ha
              refine Or.inl ⟨adds, ?_⟩
              simp [download, hnet, hst, hpar, hcd, how, hcl, ha]
            | ok acc =>
              rw [hcl] at hops
              obtain ⟨adds, ha⟩ := hops
              simp only [loopOps, List.nil_append] at ha
              refine Or.inr ⟨adds, acc.fileSizeReported - acc.fileDownloaded, ?_⟩
              cases hc : file.checksum with
              | none => simp [download, hnet, hst, hpar, hcd, how, hcl, hc, ha]
              | some c =>
                by_cases heq : checksumExpected c = hexEncode (hashOf hm c acc.buf)
                · simp [download, hnet, hst, hpar, hcd, how, hcl, hc, heq, ha]
                · simp [download, hnet, hst, hpar, hcd, how, hcl, hc, heq, ha]

theorem runTask_ops (hm : HashModel) (net : String → Except String Response)
    (fs : FS) (file : Downloadable) (dc sd : Bool) (tc : Nat) (st : PState) :
    (∃ adds : List Nat, (runTask hm net fs file dc sd tc st).ops = adds.map CounterOp.add)
    ∨ (∃ (adds : List Nat) (d : Nat),
        (runTask hm net fs file dc sd tc st).ops
          = adds.map CounterOp.add ++ [CounterOp.sub d]) := by
  cases hfg : fileLooksGood fs file with
  | false =>
    cases sd with
    | false => simpa [runTask, hfg] using download_ops hm net fs file tc st
    | true => exact Or.inl ⟨[], by simp [runTask, hfg]⟩
  | true =>
    cases dc with
    | false => exact Or.inl ⟨[], by simp [runTask, hfg]⟩
    | true =>
      cases hr : fs.readFile file.path with
      | error e => exact Or.inl ⟨[], by simp [runTask, hfg, hr]⟩
      | ok buf =>
        cases hc : file.checksum with
        | none => simpa [runTask, hfg, hr, hc] using download_ops hm net fs file tc st
        | some c =>
          by_cases heq : checksumExpected c = hexEncode (hashOf hm c buf)
          · cases hsz : file.size with
            | none => exact Or.inl ⟨[], by simp [runTask, hfg, hr, hc, heq, hsz]⟩
            | some sz => exact Or.inl ⟨[sz], by simp [runTask, hfg, hr, hc, heq, hsz]⟩
          · simpa [runTask, hfg, hr, hc, heq] using download_ops hm net fs file tc st

theorem append_sub_cons_eq_map_add :
    ∀ (l₁ : List CounterOp) (adds : List Nat) (d d2 : Nat) (l₂ : List CounterOp),
      l₁ ++ CounterOp.sub d :: l₂ = adds.map CounterOp.add ++ [CounterOp.sub d2] →
      l₂ = [] ∧ ∀ op ∈ l₁, ∃ n, op = CounterOp.add n := by
  intro l₁
  induction l₁ with
  | nil =>
    intro adds d d2 l₂ h
    cases adds with
    | nil =>
      simp only [List.map_nil, List.nil_append, List.cons.injEq] at h
      exact ⟨h.2, by simp⟩
    | cons a as =>
      simp only [List.map_cons, List.cons_append, List.nil_append, List.cons.injEq] at h
      exact absurd h.1 (by simp)
  | cons x l₁ ih =>
    intro adds d d2 l₂ h
    cases adds with
    | nil =>
      simp only [List.map_nil, List.nil_append, List.cons_append, List.cons.injEq] at h
      exact absurd h.2 (by simp)
    | cons a as =>
      simp only [List.map_cons, List.cons_append, List.cons.injEq] at h
      obtain ⟨h2, h3⟩ := ih as d d2 l₂ h.2
      refine ⟨h2, ?_⟩
      intro op hop
      rcases List.mem_cons.mp hop with rfl | hop
      · exact ⟨a, h.1⟩
      · exact h3 op hop

/-! Claim theorems. -/

set_option maxRecDepth 20000 in
/-- C1: the claim (with spec Scenario B) says a batch of one descriptor
with `expected_size = 1024` and a 900-byte remote payload fails with
`SizeMismatch{expected: 1024, actual: 900}`.  The code of
`download_multiple` performs no size comparison after streaming: the run
returns `Ok(true)`.  The check the claim describes exists only in
`download_file` (lib.rs 142-148), which on the same input does return the
mismatch; lib.rs 214 marks `download_multiple`'s verification as a TODO. -/
theorem c1_download_multiple_ignores_size_mismatch :
    downloadMultiple hmZero netB fsB [fileB] false false = .ok true
    ∧ downloadFile hmZero netB fsB fileB = .error (.sizeMismatch 1024 900) :=
  ⟨rfl, rfl⟩

/-- C2: `download_multiple` joins every task in spawn order;
`downloadMultiple` is the join of all task results, an all-`Ok` join is
the logical OR of the booleans, the join is `Ok(false)` exactly when every
task returned `Ok(false)` (fresh), and the first failure in join order is
returned with the remaining results discarded. -/
theorem c2_join_or_and_first_failure :
    (∀ (hm : HashModel) (net : String → Except String Response) (fs : FS)
        (files : List Downloadable) (dc sd : Bool),
        downloadMultiple hm net fs files dc sd
          = joinLoop false (runTasks hm net fs dc sd files.length files
              ⟨0, 0, (files.filterMap (fun f => f.size)).foldl addW 0⟩).1)
    ∧ (∀ bs : List Bool, joinLoop false (bs.map TaskResult.ok) = .ok (bs.any id))
    ∧ (∀ rs : List TaskResult,
        joinLoop false rs = .ok false ↔ ∀ r ∈ rs, r = .ok false)
    ∧ (∀ (pre : List Bool) (e : DownloadError) (rest : List TaskResult),
        joinLoop false (pre.map TaskResult.ok ++ TaskResult.err e :: rest) = .error e) := by
  refine ⟨fun hm net fs files dc sd => rfl, fun bs => ?_, fun rs => ?_,
    joinLoop_first_error false⟩
  · simpa using joinLoop_map_ok false bs
  · simpa using joinLoop_ok_false_iff false rs

theorem c2_join_or_and_first_failure_witness :
    downloadMultiple hmZero netB fsB [fileB] false false
      = joinLoop false (runTasks hmZero netB fsB false false [fileB].length [fileB]
          ⟨0, 0, ([fileB].filterMap (fun f => f.size)).foldl addW 0⟩).1
    ∧ joinLoop false ([false, true].map TaskResult.ok) = .ok ([false, true].any id)
    ∧ (joinLoop false [TaskResult.ok false] = .ok false ↔
        ∀ r ∈ [TaskResult.ok false], r = .ok false)
    ∧ joinLoop false
        ([true].map TaskResult.ok ++ TaskResult.err (.genericDownload "x") :: [TaskResult.ok false])
      = .error (.genericDownload "x") :=
  ⟨c2_join_or_and_first_failure.1 hmZero netB fsB [fileB] false false,
   c2_join_or_and_first_failure.2.1 [false, true],
   c2_join_or_and_first_failure.2.2.1 [TaskResult.ok false],
   c2_join_or_and_first_failure.2.2.2 [true] (.genericDownload "x") [TaskResult.ok false]⟩

/-- C3: the quick freshness check: with a declared size, fresh iff the
destination exists and its metadata length equals the size (a metadata
error counts as stale); without a declared size, fresh iff the destination
exists; and a fresh descriptor with `deep_check = false` returns
`Ok(false)` with no network access, nothing sent and nothing written. -/
theorem c3_local_freshness :
    (∀ (fs : FS) (file : Downloadable) (s : Nat), file.size = some s →
        (fileLooksGood fs file = true ↔
          fs.pathExists file.path = true ∧ fs.metadata file.path = .ok s))
    ∧ (∀ (fs : FS) (file : Downloadable), file.size = none →
        fileLooksGood fs file = fs.pathExists file.path)
    ∧ (∀ (hm : HashModel) (net : String → Except String Response) (fs : FS)
        (file : Downloadable) (sd : Bool) (tc : Nat) (st : PState),
        fileLooksGood fs file = true →
        runTask hm net fs file false sd tc st = ⟨.ok false, st, [], false, none, []⟩) := by
  refine ⟨?_, ?_, ?_⟩
  · intro fs file s hs
    cases hpe : fs.pathExists file.path with
    | false => simp [fileLooksGood, hs, hpe]
    | true =>
      cases hmd : fs.metadata file.path with
      | ok len => simp [fileLooksGood, hs, hpe, hmd, beq_iff_eq]
      | error e => simp [fileLooksGood, hs, hpe, hmd]
  · intro fs file hs
    simp [fileLooksGood, hs]
  · intro hm net fs file sd tc st h
    simp [runTask, h]

theorem c3_local_freshness_witness :
    (fileLooksGood fsF fileF = true ↔
      fsF.pathExists fileF.path = true ∧ fsF.metadata fileF.path = .ok 100)
    ∧ fileLooksGood fsB ⟨"http://example/q", "/q", none, none⟩ = fsB.pathExists "/q"
    ∧ runTask hmZero netB fsF fileF false false 1 ⟨0, 0, 0⟩
        = ⟨.ok false, ⟨0, 0, 0⟩, [], false, none, []⟩ :=
  ⟨c3_local_freshness.1 fsF fileF 100 rfl,
   c3_local_freshness.2.1 fsB ⟨"http://example/q", "/q", none, none⟩ rfl,
   c3_local_freshness.2.2 hmZero netB fsF fileF false 1 ⟨0, 0, 0⟩ rfl⟩

set_option maxRecDepth 20000 in
/-- C4 counterexample, three concrete runs of the scenario-B descriptor
(declared size 1024) refuting each part of the claim.  Against the
900-byte payload the transfer succeeds (`Ok(true)`), yet
`progress_counter` is first raised by the 900 streamed bytes and then
lowered by `fetch_sub(124)` (lib.rs 436-437) to 776 — a successfully
completed transfer *does* decrease `bytes_completed`.  Against a stream
that fails after 1 byte the task errors out with its op log ending in the
lone `add 1` and the counter left at 1 — the failed transfer's partial
contribution is *not* subtracted back out.  Against a 100-byte payload
the `fetch_sub(924)` wraps the `u64` counter to `2^64 - 824`, and the
snapshot published in that very update shows
`current_size = 18446744073709550792` against the unchanged
`total_size = 1024` — a consumer observes `bytes_completed` exceeding
`bytes_total` in an update in which `bytes_total` did not grow. -/
theorem c4_successful_transfer_decreases_counter :
    runB.result = .ok true
    ∧ runB.ops = [.add 900, .sub 124]
    ∧ runB.state.progressCounter = 776
    ∧ runB.state.progressCounter < 900
    ∧ runE.result = .err (.transport "reset")
    ∧ runE.ops = [.add 1]
    ∧ runE.state.progressCounter = 1
    ∧ runW.result = .ok true
    ∧ runW.ops = [.add 100, .sub 924]
    ∧ runW.sent = [⟨1, 0, 1024, 0⟩, ⟨1, 0, 1024, 18446744073709550792⟩]
    ∧ ∃ p ∈ runW.sent, p.totalSize < p.currentSize :=
  ⟨rfl, rfl, rfl, by decide, rfl, rfl, rfl, rfl, rfl, rfl,
   ⟨⟨1, 0, 1024, 18446744073709550792⟩, by decide, by decide⟩⟩

/-- C4 amended: within one task, `progress_counter` receives only chunk
additions until at most one `fetch_sub`, always the task's final counter
operation; the subtraction happens exactly when the response stream
completes: a completed stream contributes one add per chunk followed by
one subtraction of the credited-but-not-downloaded difference
(`file_size_reported - file_downloaded`, lib.rs 436-437, whatever the
later checksum verdict), while a stream that fails mid-way contributes
only the adds of the chunks before the failure and never subtracts, so a
successful short transfer can decrease the counter (wrapping in `u64`)
and a failed transfer's partial contribution stays in place. -/
theorem c4_sub_exactly_at_stream_completion :
    (∀ (hm : HashModel) (net : String → Except String Response) (fs : FS)
        (file : Downloadable) (dc sd : Bool) (tc : Nat) (st : PState)
        (l₁ : List CounterOp) (d : Nat) (l₂ : List CounterOp),
        (runTask hm net fs file dc sd tc st).ops = l₁ ++ CounterOp.sub d :: l₂ →
        l₂ = [] ∧ ∀ op ∈ l₁, ∃ n, op = CounterOp.add n)
    ∧ (∀ (hm : HashModel) (net : String → Except String Response) (fs : FS)
        (file : Downloadable) (tc : Nat) (st : PState) (resp : Response)
        (p : String) (cs : List (List Nat)),
        net file.url = .ok resp → statusIsSuccess resp.status = true →
        fs.parentOf file.path = some p → fs.createDir p = .ok () →
        fs.openWrite file.path = .ok () → resp.chunks = cs.map Except.ok →
        ∃ acc2 : LoopAcc,
          chunkLoop tc (cs.map Except.ok) ⟨[], 0, file.size.getD 0, st, [], [], []⟩
              = .ok acc2
          ∧ (download hm net fs file tc st).ops
              = (cs.map fun c => CounterOp.add c.length)
                ++ [CounterOp.sub (acc2.fileSizeReported - acc2.fileDownloaded)])
    ∧ (∀ (hm : HashModel) (net : String → Except String Response) (fs : FS)
        (file : Downloadable) (tc : Nat) (st : PState) (resp : Response)
        (p : String) (pre : List (List Nat)) (e : String)
        (rest : List (Except String (List Nat))),
        net file.url = .ok resp → statusIsSuccess resp.status = true →
        fs.parentOf file.path = some p → fs.createDir p = .ok () →
        fs.openWrite file.path = .ok () →
        resp.chunks = pre.map Except.ok ++ .error e :: rest →
        (download hm net fs file tc st).ops
          = pre.map fun c => CounterOp.add c.length) := by
  refine ⟨?_, ?_, ?_⟩
  · intro hm net fs file dc sd tc st l₁ d l₂ h
    rcases runTask_ops hm net fs file dc sd tc st with ⟨adds, ha⟩ | ⟨adds, d2, ha⟩
    · exfalso
      rw [h] at ha
      have hmem : CounterOp.sub d ∈ l₁ ++ CounterOp.sub d :: l₂ :=
        List.mem_append_right _ (List.mem_cons_self _ _)
      rw [ha] at hmem
      obtain ⟨n, -, hn⟩ := List.mem_map.mp hmem
      exact CounterOp.noConfusion hn
    · rw [h] at ha
      exact append_sub_cons_eq_map_add l₁ adds d d2 l₂ ha
  · intro hm net fs file tc st resp p cs hnet hst hp hcd how hch
    obtain ⟨acc2, hloop, hops⟩ :=
      chunkLoop_ok_ops tc cs ⟨[], 0, file.size.getD 0, st, [], [], []⟩
    refine ⟨acc2, hloop, ?_⟩
    cases hc : file.checksum with
    | none => simp [download, hnet, hst, hp, hcd, how, hch, hloop, hops, hc]
    | some c =>
      by_cases heq : checksumExpected c = hexEncode (hashOf hm c acc2.buf)
      · simp [download, hnet, hst, hp, hcd, how, hch, hloop, hops, hc, heq]
      · simp [download, hnet, hst, hp, hcd, how, hch, hloop, hops, hc, heq]
  · intro hm net fs file tc st resp p pre e rest hnet hst hp hcd how hch
    obtain ⟨acc2, hloop, hops⟩ :=
      chunkLoop_err_ops tc pre e rest ⟨[], 0, file.size.getD 0, st, [], [], []⟩
    simp [download, hnet, hst, hp, hcd, how, hch, hloop, hops]

set_option maxRecDepth 20000 in
theorem c4_sub_exactly_at_stream_completion_witness :
    (([] : List CounterOp) = []
      ∧ ∀ op ∈ [CounterOp.add 900], ∃ n, op = CounterOp.add n)
    ∧ (∃ acc2 : LoopAcc,
        chunkLoop 1 ([List.replicate 100 7].map Except.ok)
            ⟨[], 0, fileB.size.getD 0, ⟨0, 0, 1024⟩, [], [], []⟩ = .ok acc2
        ∧ (download hmZero netW fsB fileB 1 ⟨0, 0, 1024⟩).ops
            = ([List.replicate 100 7].map fun c => CounterOp.add c.length)
              ++ [CounterOp.sub (acc2.fileSizeReported - acc2.fileDownloaded)])
    ∧ (download hmZero netE fsB fileB 1 ⟨0, 0, 1024⟩).ops
        = ([[7]].map fun c => CounterOp.add c.length) :=
  ⟨c4_sub_exactly_at_stream_completion.1 hmZero netB fsB fileB false false 1
      ⟨0, 0, 1024⟩ [CounterOp.add 900] 124 [] rfl,
   c4_sub_exactly_at_stream_completion.2.1 hmZero netW fsB fileB 1 ⟨0, 0, 1024⟩
      ⟨200, [Except.ok (List.replicate 100 7)]⟩ "/dst" [List.replicate 100 7]
      rfl (by decide) rfl rfl rfl rfl,
   c4_sub_exactly_at_stream_completion.2.2 hmZero netE fsB fileB 1 ⟨0, 0, 1024⟩
      ⟨200, [Except.ok [7], Except.error "reset"]⟩ "/dst" [[7]] "reset" []
      rfl (by decide) rfl rfl rfl rfl⟩

/-- C5 counterexample: in a deep-verified fresh run the task returns
`Ok(false)` and `progress_counter` does gain the declared 100 bytes, but
`file_counter` is merely `load`ed, never incremented (stays 0), and the
snapshot published in that update carries `current_size = 0` — the value
`fetch_add` returned from *before* the addition — so the snapshot reflects
neither contribution the claim describes. -/
theorem c5_fresh_credit_not_published :
    runF.result = .ok false
    ∧ runF.state.progressCounter = 100
    ∧ runF.state.fileCounter = 0
    ∧ runF.sent = [⟨1, 0, 100, 0⟩] :=
  ⟨rfl, rfl, rfl, rfl⟩

/-- C5 amended: when deep verification is requested, the quick check has
passed and the hash matches, the transfer short-circuits with outcome
`Fresh` (`Ok(false)`, no network) and the full declared size is added to
`bytes_completed`; but `files_completed` is not incremented, and the
snapshot published in that update carries the `bytes_completed` value from
before the addition together with the unchanged `files_completed`. -/
theorem c5_deep_fresh_credit (hm : HashModel)
    (net : String → Except String Response) (fs : FS) (file : Downloadable)
    (c : Checksum) (s : Nat) (sd : Bool) (tc : Nat) (st : PState) (b : List Nat)
    (hfresh : fileLooksGood fs file = true)
    (hc : file.checksum = some c) (hs : file.size = some s)
    (hread : fs.readFile file.path = .ok b)
    (hmatch : checksumExpected c = hexEncode (hashOf hm c b)) :
    runTask hm net fs file true sd tc st
      = ⟨.ok false, ⟨addW st.progressCounter s, st.fileCounter, st.totalSize⟩,
         [⟨tc, st.fileCounter, st.totalSize, st.progressCounter⟩],
         false, none, [.add s]⟩ := by
  simp [runTask, hfresh, hread, hc, hs, hmatch]

theorem c5_deep_fresh_credit_witness :
    runTask hmAB netNone fsF fileF true false 1 ⟨0, 0, 100⟩
      = ⟨.ok false, ⟨addW 0 100, 0, 100⟩, [⟨1, 0, 100, 0⟩], false, none, [.add 100]⟩ :=
  c5_deep_fresh_credit hmAB netNone fsF fileF (.sha1 "ab") 100 false 1 ⟨0, 0, 100⟩
    [1, 2, 3] rfl rfl rfl rfl (by decide)

/-- C6: a hash mismatch during deep verification is not fatal: the task
falls through to a full re-download, and when that download succeeds
(success status, clean stream, matching checksum on the fresh payload) the
task's outcome is `Ok(true)`, with the network accessed. -/
theorem c6_deep_mismatch_redownloads (hm : HashModel)
    (net : String → Except String Response) (fs : FS) (file : Downloadable)
    (c : Checksum) (tc : Nat) (st : PState) (sd : Bool) (b : List Nat)
    (resp : Response) (p : String) (cs : List (List Nat))
    (hfresh : fileLooksGood fs file = true)
    (hc : file.checksum = some c)
    (hread : fs.readFile file.path = .ok b)
    (hneq : checksumExpected c ≠ hexEncode (hashOf hm c b))
    (hnet : net file.url = .ok resp)
    (hst : statusIsSuccess resp.status = true)
    (hp : fs.parentOf file.path = some p)
    (hcd : fs.createDir p = .ok ())
    (how : fs.openWrite file.path = .ok ())
    (hch : resp.chunks = cs.map Except.ok)
    (hmatch2 : checksumExpected c = hexEncode (hashOf hm c (bytesConcat cs))) :
    (runTask hm net fs file true sd tc st).result = .ok true
    ∧ (runTask hm net fs file true sd tc st).network = true := by
  obtain ⟨acc2, hloop, hbuf, hwr⟩ :=
    chunkLoop_all_ok tc cs ⟨[], 0, file.size.getD 0, st, [], [], []⟩
  have hneq2 : hexEncode (hashOf hm c (bytesConcat cs)) ≠ hexEncode (hashOf hm c b) :=
    hmatch2 ▸ hneq
  constructor <;>
    simp [runTask, download, hfresh, hread, hc, hnet, hst, hp, hcd, how, hch,
      hloop, hbuf, hmatch2, hneq2]

theorem c6_deep_mismatch_redownloads_witness :
    (runTask hm6 net6 fs6 file6 true false 1 ⟨0, 0, 1⟩).result = .ok true
    ∧ (runTask hm6 net6 fs6 file6 true false 1 ⟨0, 0, 1⟩).network = true :=
  c6_deep_mismatch_redownloads hm6 net6 fs6 file6 (.sha1 "ab") 1 ⟨0, 0, 1⟩ false
    [1] ⟨200, [Except.ok [9]]⟩ "/dst" [[9]]
    rfl rfl rfl (by decide) rfl (by decide) rfl rfl rfl rfl (by decide)

/-- C7: a downloaded payload whose digest under the declared algorithm
differs from the declared hex string fails the task with
`ChecksumMismatch{expected, actual, url, path}`, where `expected` is the
declared hash and `actual` the lowercase-hex computed digest, and the
fully written destination content remains (the model records the complete
payload as written; no deletion exists on this path). -/
theorem c7_checksum_mismatch_error (hm : HashModel)
    (net : String → Except String Response) (fs : FS) (file : Downloadable)
    (c : Checksum) (tc : Nat) (st : PState) (dc : Bool)
    (resp : Response) (p : String) (cs : List (List Nat))
    (hc : file.checksum = some c)
    (hfresh : fileLooksGood fs file = false)
    (hnet : net file.url = .ok resp)
    (hst : statusIsSuccess resp.status = true)
    (hp : fs.parentOf file.path = some p)
    (hcd : fs.createDir p = .ok ())
    (how : fs.openWrite file.path = .ok ())
    (hch : resp.chunks = cs.map Except.ok)
    (hneq : checksumExpected c ≠ hexEncode (hashOf hm c (bytesConcat cs))) :
    (runTask hm net fs file dc false tc st).result
      = .err (.checksumMismatch (checksumExpected c)
          (hexEncode (hashOf hm c (bytesConcat cs))) file.url file.path)
    ∧ (runTask hm net fs file dc false tc st).written = some (bytesConcat cs) := by
  obtain ⟨acc2, hloop, hbuf, hwr⟩ :=
    chunkLoop_all_ok tc cs ⟨[], 0, file.size.getD 0, st, [], [], []⟩
  constructor <;>
    simp [runTask, download, hfresh, hc, hnet, hst, hp, hcd, how, hch, hloop, hbuf,
      hwr, hneq]

theorem c7_checksum_mismatch_error_witness :
    (runTask hmZero net7 fs7 file7 false false 1 ⟨0, 0, 0⟩).result
      = .err (.checksumMismatch (checksumExpected (.sha1 "ab"))
          (hexEncode (hashOf hmZero (.sha1 "ab") (bytesConcat [[1]])))
          file7.url file7.path)
    ∧ (runTask hmZero net7 fs7 file7 false false 1 ⟨0, 0, 0⟩).written
        = some (bytesConcat [[1]]) :=
  c7_checksum_mismatch_error hmZero net7 fs7 file7 (.sha1 "ab") 1 ⟨0, 0, 0⟩ false
    ⟨200, [Except.ok [1]]⟩ "/dst" [[1]]
    rfl rfl rfl (by decide) rfl rfl rfl rfl (by decide)

/-- C8: a descriptor with `size = None` and a declared checksum whose
destination exists passes the quick check via the `None` branch; with
`deep_check = true` and a matching hash the task then evaluates
`file.size.unwrap()` (lib.rs 298) on `None` and panics instead of
returning any outcome. -/
theorem c8_deep_fresh_without_size_panics (hm : HashModel)
    (net : String → Except String Response) (fs : FS) (file : Downloadable)
    (c : Checksum) (sd : Bool) (tc : Nat) (st : PState) (b : List Nat)
    (hsz : file.size = none) (hc : file.checksum = some c)
    (hpe : fs.pathExists file.path = true)
    (hread : fs.readFile file.path = .ok b)
    (hmatch : checksumExpected c = hexEncode (hashOf hm c b)) :
    (runTask hm net fs file true sd tc st).result = .panicked := by
  have hfresh : fileLooksGood fs file = true := by simp [fileLooksGood, hsz, hpe]
  simp [runTask, hfresh, hread, hc, hmatch, hsz]

theorem c8_deep_fresh_without_size_panics_witness :
    (runTask hmAB netNone fsF file8 true false 1 ⟨0, 0, 0⟩).result = .panicked :=
  c8_deep_fresh_without_size_panics hmAB netNone fsF file8 (.sha1 "ab") false 1
    ⟨0, 0, 0⟩ [1, 2, 3] rfl rfl rfl rfl (by decide)

/-- C9: with no declared checksum, passing the quick check does not
short-circuit under `deep_check = true`: the file is read, the checksum
match falls through, and the full network transfer runs (returning
`Ok(true)` when it succeeds), while the same descriptor with
`deep_check = false` returns `Ok(false)` without touching the network. -/
theorem c9_deep_check_without_checksum_redownloads (hm : HashModel)
    (net : String → Except String Response) (fs : FS) (file : Downloadable)
    (tc : Nat) (st : PState) (sd : Bool) (b : List Nat)
    (resp : Response) (p : String) (cs : List (List Nat))
    (hfresh : fileLooksGood fs file = true)
    (hc : file.checksum = none)
    (hread : fs.readFile file.path = .ok b)
    (hnet : net file.url = .ok resp)
    (hst : statusIsSuccess resp.status = true)
    (hp : fs.parentOf file.path = some p)
    (hcd : fs.createDir p = .ok ())
    (how : fs.openWrite file.path = .ok ())
    (hch : resp.chunks = cs.map Except.ok) :
    (runTask hm net fs file true sd tc st).network = true
    ∧ (runTask hm net fs file true sd tc st).result = .ok true
    ∧ runTask hm net fs file false sd tc st = ⟨.ok false, st, [], false, none, []⟩ := by
  obtain ⟨acc2, hloop, hbuf, hwr⟩ :=
    chunkLoop_all_ok tc cs ⟨[], 0, file.size.getD 0, st, [], [], []⟩
  refine ⟨?_, ?_, ?_⟩ <;>
    simp [runTask, download, hfresh, hc, hread, hnet, hst, hp, hcd, how, hch, hloop]

theorem c9_deep_check_without_checksum_redownloads_witness :
    (runTask hmZero net9 fs9 file9 true false 1 ⟨0, 0, 1⟩).network = true
    ∧ (runTask hmZero net9 fs9 file9 true false 1 ⟨0, 0, 1⟩).result = .ok true
    ∧ runTask hmZero net9 fs9 file9 false false 1 ⟨0, 0, 1⟩
        = ⟨.ok false, ⟨0, 0, 1⟩, [], false, none, []⟩ :=
  c9_deep_check_without_checksum_redownloads hmZero net9 fs9 file9 1 ⟨0, 0, 1⟩ false
    [5] ⟨200, [Except.ok [5]]⟩ "/dst" [[5]]
    rfl rfl rfl rfl (by decide) rfl rfl rfl rfl

/-- C10 counterexample: the permit is acquired *before* the freshness
check in the body order, and under `concurrency_limit = 1` two tasks can
never be inside their bodies (hence in their freshness checks)
simultaneously — refuting the claim that local freshness checks are
unbounded and not gated by the semaphore. -/
theorem c10_freshness_check_is_gated :
    stepIndex .acquirePermit < stepIndex .freshnessCheck
    ∧ ¬ ∃ t : SemState, SemReach 1 ⟨2, 0, 0⟩ t ∧ t.inBody = 2 := by
  refine ⟨by decide, ?_⟩
  rintro ⟨t, ht, h2⟩
  have hle := semReach_inBody_le 1 ⟨2, 0, 0⟩ t (Nat.zero_le 1) ht
  omega

/-- C10 amended: the counting semaphore of size `n` gates entry into the
*entire* task body — at most `n` tasks are inside their bodies in any
reachable state, bounding simultaneous network transfers by `n`; but the
freshness check is inside the gated body too (the permit is acquired
first and released last), so freshness checks are equally bounded, not
unbounded. -/
theorem c10_semaphore_gates_entire_body (n k : Nat) (t : SemState)
    (h : SemReach n ⟨k, 0, 0⟩ t) :
    t.inBody ≤ n
    ∧ stepIndex .acquirePermit < stepIndex .freshnessCheck
    ∧ stepIndex .freshnessCheck < stepIndex .releasePermit
    ∧ stepIndex .acquirePermit < stepIndex .networkRequest
    ∧ stepIndex .networkRequest < stepIndex .releasePermit :=
  ⟨semReach_inBody_le n ⟨k, 0, 0⟩ t (Nat.zero_le n) h,
   by decide, by decide, by decide, by decide⟩

theorem c10_semaphore_gates_entire_body_witness :
    (⟨3, 0, 0⟩ : SemState).inBody ≤ 2
    ∧ stepIndex .acquirePermit < stepIndex .freshnessCheck
    ∧ stepIndex .freshnessCheck < stepIndex .releasePermit
    ∧ stepIndex .acquirePermit < stepIndex .networkRequest
    ∧ stepIndex .networkRequest < stepIndex .releasePermit :=
  c10_semaphore_gates_entire_body 2 3 ⟨3, 0, 0⟩ SemReach.refl

end CarbonNet
